import Mathlib

/-! Storage abstraction layer: two `dbService` back ends.

A shallow embedding of

* `src/src/services/api/db/dbService.go` (RethinkDB-style back end, namespace `RethinkDb`),
* `src/api-service/db/dbService.go` (Mongo-style back end, namespace `MongoDb`),

followed by theorems about table naming, identifier generation on `Insert`, and the
session caches of both back ends.

Go strings are embedded as Lean `String`s; the only characters the code inspects
(`.` and `@`) are ASCII, so rune-wise and byte-wise replacement agree on them.
Go maps `map[string]interface{}` are the nil map or a total function into `Option`.
Process-wide variables (`session`, `connectionPool`) become fields of an explicit
`World` that every operation threads through; the driver libraries are oracles in `Env`.
-/

/-! ## Go standard library: `strings.Replace` -/

namespace strings

/-- Core loop of `strings.Replace` for a non-empty `old`: scan left to right, replace
non-overlapping occurrences while `limit` lasts. `skip` counts the characters of an
occurrence just matched that are still to be stepped over. -/
def replaceLoop (old new : List Char) : Nat → Nat → List Char → List Char
  | _, _, [] => []
  | limit, skip + 1, _ :: cs => replaceLoop old new limit skip cs
  | 0, 0, c :: cs => c :: cs
  | limit + 1, 0, c :: cs =>
    if old.isPrefixOf (c :: cs) then new ++ replaceLoop old new limit (old.length - 1) cs
    else c :: replaceLoop old new (limit + 1) 0 cs

/-- The case of an empty `old` in `strings.Replace`: `new` is inserted at the beginning and
after each rune, at most `limit` times. -/
def replaceEmpty (new : List Char) : Nat → List Char → List Char
  | 0, cs => cs
  | _ + 1, [] => new
  | limit + 1, c :: cs => new ++ c :: replaceEmpty new limit cs

/-- Go `strings.Replace(s, old, new, n)`: the first `n` non-overlapping instances of `old`
replaced by `new`; no limit when `n < 0`. -/
def Replace (s old new : String) (n : Int) : String :=
  if old = new ∨ n = 0 then s
  else
    let limit := if n < 0 then s.length + 1 else n.toNat
    if old.data = [] then ⟨replaceEmpty new.data limit s.data⟩
    else ⟨replaceLoop old.data new.data limit 0 s.data⟩

end strings

/-! ## RethinkDB-style back end: construction of store handles -/

namespace RethinkDb

/-- Values the code reads from `config` and `Constants`, which are not part of the
sources at hand: `config.Get(config.KEY_RETHINK_ADDR)` and `Constants.DatabaseName()`. -/
structure Settings where
  rethinkAddr : String
  databaseName : String

/-- The Go struct `dbService` of the RethinkDB-style back end. -/
structure dbService where
  address : String
  dbName : String
  tableName : String
deriving DecidableEq, Repr

/-- Go `NewDbService`: reads the address and rewrites `.` and `@` of the table name to `_`. -/
def NewDbService (cfg : Settings) (dbName tableName : String) : dbService :=
  let address := cfg.rethinkAddr
  let tableName := strings.Replace (strings.Replace tableName "." "_" (-1)) "@" "_" (-1)
  { address := address, dbName := dbName, tableName := tableName }

/-- Go `NewTypeDbService`. -/
def NewTypeDbService (cfg : Settings) (appId typeName : String) : dbService :=
  NewDbService cfg cfg.databaseName (appId ++ "." ++ typeName)

/-- Go `NewAppUsersDbService`. -/
def NewAppUsersDbService (cfg : Settings) (appId : String) : dbService :=
  NewDbService cfg cfg.databaseName (appId ++ "." ++ "users")

/-- The rewriting as the specification words it: every `.` and every `@` becomes `_`,
every other character stays in place. -/
def rewriteReserved (s : String) : String :=
  ⟨s.data.map (fun c => if c = '.' ∨ c = '@' then '_' else c)⟩

end RethinkDb

/-! ## Documents -/

/-- Go `interface{}` values held in a document: the nil interface, strings, numbers,
booleans, and composite values (nested maps, slices) kept abstract behind a code. -/
inductive Value where
  | nil
  | str (s : String)
  | num (n : Int)
  | bool (b : Bool)
  | composite (code : Nat)
deriving DecidableEq, Repr

/-- A Go value of type `map[string]interface{}`: the nil map, or an allocated map given by
its entries (`none` means the key is absent). -/
inductive Doc where
  | nil
  | map (fields : String → Option Value)

namespace Doc

/-- Go `v, ok := doc[k]`: reading is allowed on a nil map and finds nothing. -/
def lookup : Doc → String → Option Value
  | Doc.nil, _ => none
  | Doc.map m, k => m k

/-- Go `doc[k]` as an expression: the nil interface when the key is absent. -/
def index (doc : Doc) (k : String) : Value := (doc.lookup k).getD Value.nil

/-- Go `doc[k] = v`: `none` stands for the panic "assignment to entry in nil map"; an
allocated map is updated in place, so the caller sees the new entry. -/
def set : Doc → String → Value → Option Doc
  | Doc.nil, _, _ => none
  | Doc.map m, k, v => some (Doc.map (fun k1 => if k1 = k then some v else m k1))

/-- The empty map `map[string]interface{}{}`. -/
def empty : Doc := Doc.map (fun _ => none)

/-- Whether the map is nil. -/
def isNil : Doc → Bool
  | Doc.nil => true
  | Doc.map _ => false

end Doc

/-! ## RethinkDB-style back end: process state and operations -/

namespace RethinkDb

/-- A live `*r.Session`: the address it was connected to and its identity. -/
structure Session where
  id : Nat
  address : String
deriving DecidableEq, Repr

/-- The term `r.DB(dbName).Table(tableName)`. -/
structure Table where
  dbName : String
  tableName : String
deriving DecidableEq, Repr

/-- The driver and the helpers outside the package: `r.Connect` (`true` when it succeeds),
the table-provisioning query, `RunWrite` of an insert (its error, if any) and
`utils.GetCleanUUID`. Each may answer differently from one call to the next. -/
structure Env where
  connect : Nat → String → Bool
  ensureTable : Session → Table → Bool
  runInsert : Session → Table → Doc → Option String
  uuid : Nat → String

/-- Process state: the package variable `session` and a record of what reached the driver. -/
structure World where
  session : Option Session
  connects : List String
  provisioned : List Table
  inserted : List (Table × Doc)
  loggedErrors : Nat
  uuids : Nat

/-- Process start: `var session *r.Session` is nil. -/
def World.start : World :=
  { session := none, connects := [], provisioned := [], inserted := [], loggedErrors := 0,
    uuids := 0 }

/-- Outcome of a call: a value, or a Go `panic`. -/
inductive Result (α : Type) where
  | ok (a : α) (w : World)
  | panic (w : World)

/-- Go `(*dbService).GetSession`. -/
def GetSession (env : Env) (d : dbService) (w : World) : Result Session :=
  match w.session with
  | none =>
    let ok := env.connect w.connects.length d.address
    let w := { w with connects := w.connects ++ [d.address] }
    if ok then
      let s : Session := { id := w.connects.length - 1, address := d.address }
      Result.ok s { w with session := some s }
    else Result.panic w
  | some s => Result.ok s w

/-- Go `(*dbService).GetDb`. -/
def GetDb (d : dbService) : String := d.dbName

/-- Go `(*dbService).GetTable`: runs the create-unless-present query (an error is only
logged) and returns the table term. -/
def GetTable (env : Env) (d : dbService) (w : World) : Result Table :=
  let db := GetDb d
  match GetSession env d w with
  | Result.panic w => Result.panic w
  | Result.ok s w =>
    let t : Table := { dbName := db, tableName := d.tableName }
    let w := { w with provisioned := w.provisioned ++ [t] }
    let w := if env.ensureTable s t then w else { w with loggedErrors := w.loggedErrors + 1 }
    Result.ok t w

/-- Go `(*dbService).Insert`. The first component is the caller's map after the call.
`utils.GetCleanUUID()` is evaluated before the assignment, which panics on a nil map. -/
def Insert (env : Env) (d : dbService) (doc : Doc) (w : World) :
    Doc × Result (Option String) :=
  let w1 : World := if doc.index "id" = Value.nil then { w with uuids := w.uuids + 1 } else w
  let assigned : Option Doc :=
    if doc.index "id" = Value.nil then doc.set "id" (Value.str (env.uuid w.uuids))
    else some doc
  match assigned with
  | none => (doc, Result.panic w1)
  | some doc =>
    match GetTable env d w1 with
    | Result.panic w => (doc, Result.panic w)
    | Result.ok t w =>
      match GetSession env d w with
      | Result.panic w => (doc, Result.panic w)
      | Result.ok s w =>
        (doc, Result.ok (env.runInsert s t doc) { w with inserted := w.inserted ++ [(t, doc)] })

/-- A sequence of `GetSession` calls, one per handle, made one after the other; the answer
pairs every handle whose call returned with the session it received. A call that panics
returns nothing; the panic is recovered by the caller (as under an HTTP handler), `session`
is still nil, and the later calls are made. -/
def runGetSessions (env : Env) : List dbService → World → List (dbService × Session)
  | [], _ => []
  | d :: ds, w =>
    match GetSession env d w with
    | Result.ok s w => (d, s) :: runGetSessions env ds w
    | Result.panic w => runGetSessions env ds w

end RethinkDb

/-! ## Mongo-style back end -/

namespace MongoDb

/-- Values read from `config` and `Constants`, which are not part of the sources at hand. -/
structure Settings where
  mongoAddr : String
  databaseName : String
  usersCollection : String
  applicationsCollection : String
  systemCollection : String

/-- The fields of `mgo.Index` that the code sets. -/
structure Index where
  Key : List String
  Unique : Bool
  DropDups : Bool
  Background : Bool
  Sparse : Bool
deriving DecidableEq, Repr

/-- The zero value `mgo.Index{}`. -/
def Index.zero : Index :=
  { Key := [], Unique := false, DropDups := false, Background := false, Sparse := false }

/-- The Go struct `dbService` of the Mongo-style back end. -/
structure dbService where
  connectionString : String
  dbName : String
  colName : String
  index : Index
deriving DecidableEq, Repr

/-- Go `NewDbService`. -/
def NewDbService (cfg : Settings) (dbName colName : String) (index : Index) : dbService :=
  let connectionString := cfg.mongoAddr
  { connectionString := connectionString, dbName := dbName, colName := colName, index := index }

/-- Go `NewUsersDbService`. -/
def NewUsersDbService (cfg : Settings) : dbService :=
  NewDbService cfg cfg.databaseName cfg.usersCollection Index.zero

/-- Go `NewTypeDbService`. -/
def NewTypeDbService (cfg : Settings) (appId typeName : String) : dbService :=
  NewDbService cfg cfg.databaseName (appId ++ "." ++ typeName) Index.zero

/-- Go `NewAppsDbService`. -/
def NewAppsDbService (cfg : Settings) (user : String) : dbService :=
  let index : Index :=
    { Key := ["$text:name"], Unique := true, DropDups := true, Background := true,
      Sparse := false }
  NewDbService cfg cfg.databaseName (user ++ "." ++ cfg.applicationsCollection) index

/-- A non-nil `*mgo.Session`, known by its identity. -/
abbrev Session := Nat

/-- Go `*mgo.Database`. -/
structure Database where
  session : Session
  name : String
deriving DecidableEq, Repr

/-- Go `*mgo.Collection`. -/
structure Collection where
  database : Database
  name : String
deriving DecidableEq, Repr

/-- What `mgo.Dial` can answer: an error, a nil session without error, a live session. -/
inductive DialOutcome where
  | error
  | nilSession
  | session
deriving DecidableEq, Repr

/-- The driver and the helpers outside the package. `dial` is asked with the number of
earlier `Dial` calls, so it may answer differently each time; `ensureIndex` says whether
`EnsureIndex` succeeds; the remaining fields are the answers of the collection calls. -/
structure Env where
  dial : Nat → String → DialOutcome
  ensureIndex : Collection → Index → Bool
  uuid : Nat → String
  insert : Collection → Doc → Option String
  update : Collection → Doc → Doc → Option String
  findId : Collection → Value → Value → Doc × Option String
  find : Collection → Value → Value → List Doc × Option String
  removeId : Collection → Value → Option String
  updateId : Collection → Value → Value → Option String

/-- Process state: the package variable `connectionPool` (a nil map at start), the sessions
made by `Copy` and not yet closed, and a record of what reached the driver. -/
structure World where
  connectionPool : Option (List (String × Option Session))
  nextSession : Nat
  openCopies : List Session
  dials : List String
  ensured : List (Collection × Index)
  inserted : List (Collection × Doc)
  uuids : Nat

/-- Process start: `var connectionPool map[string]*mgo.Session` is nil. -/
def World.start : World :=
  { connectionPool := none, nextSession := 0, openCopies := [], dials := [], ensured := [],
    inserted := [], uuids := 0 }

/-- Go `connectionPool[k]`: nil when the map is nil, the key absent, or nil stored. -/
def poolGet (pool : Option (List (String × Option Session))) (k : String) : Option Session :=
  match pool with
  | none => none
  | some m =>
    match m.lookup k with
    | some (some s) => some s
    | _ => none

/-- Go `connectionPool[k] = v` on an allocated map: one entry per key. -/
def poolSet (m : List (String × Option Session)) (k : String) (v : Option Session) :
    List (String × Option Session) :=
  (k, v) :: m.filter (fun p => decide (p.1 ≠ k))

/-- Outcome of a call: a value, `log.Fatal` (the process exits), or a Go `panic`. -/
inductive Result (α : Type) where
  | ok (a : α) (w : World)
  | fatal (w : World)
  | panic (w : World)

/-- Go `(*mgo.Session).Copy`, on a pointer that may be nil. -/
def Copy (s : Option Session) (w : World) : Result Session :=
  match s with
  | none => Result.panic w
  | some _ =>
    Result.ok w.nextSession
      { w with nextSession := w.nextSession + 1, openCopies := w.openCopies ++ [w.nextSession] }

/-- Go `(*mgo.Session).Close` on a copy. -/
def Close (s : Session) (w : World) : World :=
  { w with openCopies := w.openCopies.erase s }

/-- Go `if connectionPool == nil { connectionPool = make(map[string]*mgo.Session) }`. -/
def ensurePool (w : World) : World :=
  match w.connectionPool with
  | none => { w with connectionPool := some [] }
  | some _ => w

/-- Body of Go `(*dbService).GetDb`, given what `d.GetSession()` does. -/
def GetDbWith (getSession : World → Option (Result Session)) (d : dbService) (w : World) :
    Option (Result (Session × Database)) :=
  match getSession w with
  | none => none
  | some (Result.fatal w) => some (Result.fatal w)
  | some (Result.panic w) => some (Result.panic w)
  | some (Result.ok session w) =>
    let db : Database := { session := session, name := d.dbName }
    some (Result.ok (session, db) w)

/-- Body of Go `(*dbService).GetCollection`, given what `d.GetSession()` does. -/
def GetCollectionWith (getSession : World → Option (Result Session)) (d : dbService)
    (w : World) : Option (Result (Session × Collection)) :=
  match GetDbWith getSession d w with
  | none => none
  | some (Result.fatal w) => some (Result.fatal w)
  | some (Result.panic w) => some (Result.panic w)
  | some (Result.ok (session, db) w) =>
    let col : Collection := { database := db, name := d.colName }
    some (Result.ok (session, col) w)

/-- Go `(*dbService).GetSession`. The first argument bounds how many activations of
`GetSession` may be nested (it calls `GetCollection`, which calls `GetDb`, which calls
`GetSession`); `none` means the bound was reached. -/
def GetSession (env : Env) (d : dbService) : Nat → World → Option (Result Session)
  | 0, _ => none
  | fuel + 1, w =>
    let w := ensurePool w
    match poolGet w.connectionPool d.connectionString with
    | some storedSession => some (Copy (some storedSession) w)
    | none =>
      let outcome := env.dial w.dials.length d.connectionString
      let w := { w with dials := w.dials ++ [d.connectionString] }
      match outcome with
      | DialOutcome.error => some (Result.fatal w)
      | _ =>
        let session : Option Session :=
          if outcome = DialOutcome.session then some w.nextSession else none
        let w := { w with nextSession := w.nextSession + 1 }
        let pool := poolSet (w.connectionPool.getD []) d.connectionString session
        let w := { w with connectionPool := some pool }
        let storedSession := session
        match GetCollectionWith (GetSession env d fuel) d w with
        | none => none
        | some (Result.fatal w) => some (Result.fatal w)
        | some (Result.panic w) => some (Result.panic w)
        | some (Result.ok (_, collection) w) =>
          if d.index.Key.length > 0 then
            let w := { w with ensured := w.ensured ++ [(collection, d.index)] }
            if env.ensureIndex collection d.index then some (Copy storedSession w)
            else some (Result.fatal w)
          else some (Copy storedSession w)

/-- Go `(*dbService).GetDb`. -/
def GetDb (env : Env) (d : dbService) (fuel : Nat) (w : World) :
    Option (Result (Session × Database)) :=
  GetDbWith (GetSession env d fuel) d w

/-- Go `(*dbService).GetCollection`. -/
def GetCollection (env : Env) (d : dbService) (fuel : Nat) (w : World) :
    Option (Result (Session × Collection)) :=
  GetCollectionWith (GetSession env d fuel) d w

/-- Go `(*dbService).Insert`. The first component is the caller's map after the call.
`utils.GetCleanUUID()` is evaluated before the assignment, which panics on a nil map. -/
def Insert (env : Env) (d : dbService) (doc : Doc) (fuel : Nat) (w : World) :
    Doc × Option (Result (Option String)) :=
  let w1 : World :=
    if ¬ (doc.lookup "_id").isSome then { w with uuids := w.uuids + 1 } else w
  let assigned : Option Doc :=
    if ¬ (doc.lookup "_id").isSome then doc.set "_id" (Value.str (env.uuid w.uuids))
    else some doc
  match assigned with
  | none => (doc, some (Result.panic w1))
  | some doc =>
    match GetCollection env d fuel w1 with
    | none => (doc, none)
    | some (Result.fatal w) => (doc, some (Result.fatal w))
    | some (Result.panic w) => (doc, some (Result.panic w))
    | some (Result.ok (session, collection) w) =>
      let err := env.insert collection doc
      let w := { w with inserted := w.inserted ++ [(collection, doc)] }
      (doc, some (Result.ok err (Close session w)))

/-- Go `(*dbService).Update`. -/
def Update (env : Env) (d : dbService) (q u : Doc) (fuel : Nat) (w : World) :
    Option (Result (Option String)) :=
  match GetCollection env d fuel w with
  | none => none
  | some (Result.fatal w) => some (Result.fatal w)
  | some (Result.panic w) => some (Result.panic w)
  | some (Result.ok (session, collection) w) =>
    some (Result.ok (env.update collection q u) (Close session w))

/-- Go `(*dbService).FindId`. -/
def FindId (env : Env) (d : dbService) (id fields : Value) (fuel : Nat) (w : World) :
    Option (Result (Doc × Option String)) :=
  match GetCollection env d fuel w with
  | none => none
  | some (Result.fatal w) => some (Result.fatal w)
  | some (Result.panic w) => some (Result.panic w)
  | some (Result.ok (session, collection) w) =>
    some (Result.ok (env.findId collection id fields) (Close session w))

/-- Go `(*dbService).Find`. -/
def Find (env : Env) (d : dbService) (query fields : Value) (fuel : Nat) (w : World) :
    Option (Result (List Doc × Option String)) :=
  match GetCollection env d fuel w with
  | none => none
  | some (Result.fatal w) => some (Result.fatal w)
  | some (Result.panic w) => some (Result.panic w)
  | some (Result.ok (session, collection) w) =>
    some (Result.ok (env.find collection query fields) (Close session w))

/-- Go `(*dbService).RemoveId`. -/
def RemoveId (env : Env) (d : dbService) (id : Value) (fuel : Nat) (w : World) :
    Option (Result (Option String)) :=
  match GetCollection env d fuel w with
  | none => none
  | some (Result.fatal w) => some (Result.fatal w)
  | some (Result.panic w) => some (Result.panic w)
  | some (Result.ok (session, collection) w) =>
    some (Result.ok (env.removeId collection id) (Close session w))

/-- Go `(*dbService).UpdateId`. -/
def UpdateId (env : Env) (d : dbService) (id u : Value) (fuel : Nat) (w : World) :
    Option (Result (Option String)) :=
  match GetCollection env d fuel w with
  | none => none
  | some (Result.fatal w) => some (Result.fatal w)
  | some (Result.panic w) => some (Result.panic w)
  | some (Result.ok (session, collection) w) =>
    some (Result.ok (env.updateId collection id u) (Close session w))

/-- The world a call leaves behind, whatever its outcome. -/
def Result.world {α : Type} : Result α → World
  | Result.ok _ w => w
  | Result.fatal w => w
  | Result.panic w => w

/-- A sequence of `GetSession` calls, one per handle, made one after the other. The answer
holds the handles whose call was made and the state at the end. `log.Fatal` ends the process,
so no later call is made; a panic is recovered by the caller and the later calls are made. -/
def runGetSessions (env : Env) (fuel : Nat) : List dbService → World → List dbService × World
  | [], w => ([], w)
  | d :: ds, w =>
    match GetSession env d fuel w with
    | some (Result.ok _ w1) => (d :: (runGetSessions env fuel ds w1).1, (runGetSessions env fuel ds w1).2)
    | some (Result.fatal w1) => ([d], w1)
    | some (Result.panic w1) => (d :: (runGetSessions env fuel ds w1).1, (runGetSessions env fuel ds w1).2)
    | none => ([d], w)

/-- The specification's "each distinct connection string, on its first appearance": walk the
sequence and keep an entry exactly when it has not been seen before. -/
def firstAppearances (seen : List String) : List String → List String
  | [] => []
  | x :: xs =>
    if x ∈ seen then firstAppearances seen xs else x :: firstAppearances (seen ++ [x]) xs

/-- The connection strings that have an entry in the pool. -/
def poolKeys (w : World) : List String := (w.connectionPool.getD []).map Prod.fst

/-- An environment in which every driver call succeeds. -/
def Env.allSucceed : Env :=
  { dial := fun _ _ => DialOutcome.session
    ensureIndex := fun _ _ => true
    uuid := fun n => ⟨List.replicate (n + 1) 'f'⟩
    insert := fun _ _ => none
    update := fun _ _ _ => none
    findId := fun _ _ _ => (Doc.empty, none)
    find := fun _ _ _ => ([], none)
    removeId := fun _ _ => none
    updateId := fun _ _ _ => none }

/-- Sample settings. -/
def Settings.sample : Settings :=
  { mongoAddr := "localhost", databaseName := "neutrino", usersCollection := "users",
    applicationsCollection := "applications", systemCollection := "system" }

end MongoDb

/-! ## Auxiliary observers and sample inputs -/

namespace MongoDb

/-- The state right after a successful `Dial` was stored in the pool. -/
def dialed (d : dbService) (w : World) : World :=
  { w with
    connectionPool :=
      some (poolSet (w.connectionPool.getD []) d.connectionString (some w.nextSession))
    nextSession := w.nextSession + 1
    dials := w.dials ++ [d.connectionString] }

/-- The pool agrees with the record of `Dial` calls: no connection string was dialled twice,
no connection string has two pool entries, and exactly the dialled strings are cached. -/
def PoolInv (w : World) : Prop :=
  w.dials.Nodup ∧ (poolKeys w).Nodup ∧
    ∀ cs, cs ∈ w.dials ↔ (poolGet w.connectionPool cs).isSome = true

/-- Whether a call returned normally. -/
def returned {α : Type} : Option (Result α) → Bool
  | some (Result.ok _ _) => true
  | _ => false

/-- Whether a call ended in a panic. -/
def panicked {α : Type} : Option (Result α) → Bool
  | some (Result.panic _) => true
  | _ => false

/-- The state after a call started in `w`: unchanged when the call was cut off. -/
def worldAfter {α : Type} (r : Option (Result α)) (w : World) : World :=
  match r with
  | some r => r.world
  | none => w

/-- The documents that a call started in `w` handed to `collection.Insert`. -/
def handedDocs {α : Type} (r : Option (Result α)) (w : World) : List Doc :=
  ((worldAfter r w).inserted.drop w.inserted.length).map Prod.snd

end MongoDb

namespace RethinkDb

/-- The world a call leaves behind, whatever its outcome. -/
def Result.world {α : Type} : Result α → World
  | Result.ok _ w => w
  | Result.panic w => w

/-- Whether a call returned normally. -/
def returned {α : Type} : Result α → Bool
  | Result.ok _ _ => true
  | Result.panic _ => false

/-- Whether a call ended in a panic. -/
def panicked {α : Type} : Result α → Bool
  | Result.ok _ _ => false
  | Result.panic _ => true

/-- The documents that a call started in `w` handed to the table's `Insert`. -/
def handedDocs {α : Type} (r : Result α) (w : World) : List Doc :=
  (r.world.inserted.drop w.inserted.length).map Prod.snd

/-- An environment in which every driver call succeeds. -/
def Env.allSucceed : Env :=
  { connect := fun _ _ => true
    ensureTable := fun _ _ => true
    runInsert := fun _ _ _ => none
    uuid := fun n => ⟨List.replicate (n + 1) 'f'⟩ }

/-- Sample settings. -/
def Settings.sample : Settings := { rethinkAddr := "localhost:28015", databaseName := "neutrino" }

/-- A document that holds the nil interface under `id`, as decoding `{"id": null}` gives. -/
def nilIdDoc : Doc := Doc.map (fun k => if k = "id" then some Value.nil else none)

/-- An environment whose first `r.Connect` fails and whose later ones succeed. -/
def Env.firstConnectFails : Env :=
  { connect := fun n _ => decide (n ≠ 0)
    ensureTable := fun _ _ => true
    runInsert := fun _ _ _ => none
    uuid := fun n => ⟨List.replicate (n + 1) 'f'⟩ }

end RethinkDb

/-! ## Sample handles -/

namespace RethinkDb

/-- A handle built while the configured address was `db-a:28015`. -/
def handleA : dbService :=
  NewTypeDbService { rethinkAddr := "db-a:28015", databaseName := "neutrino" } "acme" "orders"

/-- A handle built while the configured address was `db-b:28015`. -/
def handleB : dbService :=
  NewTypeDbService { rethinkAddr := "db-b:28015", databaseName := "neutrino" } "acme" "orders"

end RethinkDb

namespace MongoDb

/-- Settings that differ from `Settings.sample` in the configured address only. -/
def Settings.replica : Settings :=
  { mongoAddr := "replica", databaseName := "neutrino", usersCollection := "users",
    applicationsCollection := "applications", systemCollection := "system" }

/-- The state once a `NewUsersDbService` handle has obtained a session from process start. -/
def afterUsersConnected : World :=
  worldAfter (GetSession Env.allSucceed (NewUsersDbService Settings.sample) 2 World.start)
    World.start

end MongoDb

/-! ## Lemmas on `strings.Replace` -/

namespace strings

theorem replaceLoop_single (a b : Char) (cs : List Char) :
    ∀ limit, cs.length ≤ limit →
      replaceLoop [a] [b] limit 0 cs = cs.map (fun c => if c = a then b else c) := by
  induction cs with
  | nil => intro limit _; cases limit <;> rfl
  | cons c cs ih =>
    intro limit hl
    obtain ⟨k, rfl⟩ : ∃ k, limit = k + 1 := ⟨limit - 1, by simp at hl; omega⟩
    have hk : cs.length ≤ k := by simpa using hl
    by_cases hc : c = a
    · subst hc
      simp [replaceLoop, List.isPrefixOf, ih k hk]
    · have hc2 : ¬ a = c := fun h => hc h.symm
      simp [replaceLoop, List.isPrefixOf, hc, hc2, ih (k + 1) (by omega)]

theorem Replace_single_data (s : String) (a b : Char) (hab : a ≠ b) :
    (Replace s ⟨[a]⟩ ⟨[b]⟩ (-1)).data = s.data.map (fun c => if c = a then b else c) := by
  have h1 : ¬ ((⟨[a]⟩ : String) = ⟨[b]⟩) := by
    intro h
    exact hab (by simpa using congrArg String.data h)
  have h2 := replaceLoop_single a b s.data (s.length + 1) (Nat.le_succ _)
  simp only [Replace, h1, false_or]
  simp [h2]

end strings

namespace RethinkDb

theorem tableName_data (cfg : Settings) (dbName name : String) :
    (NewDbService cfg dbName name).tableName = rewriteReserved name := by
  have e1 : ("." : String) = ⟨['.']⟩ := rfl
  have e2 : ("@" : String) = ⟨['@']⟩ := rfl
  have e3 : ("_" : String) = ⟨['_']⟩ := rfl
  apply String.ext
  simp only [NewDbService, rewriteReserved, e1, e2, e3]
  rw [strings.Replace_single_data _ '@' '_' (by decide),
    strings.Replace_single_data _ '.' '_' (by decide), List.map_map]
  apply List.map_congr_left
  intro c _
  by_cases h1 : c = '.'
  · subst h1; decide
  · by_cases h2 : c = '@'
    · subst h2; decide
    · simp [h1, h2]

end RethinkDb

/-! ## Table names of the RethinkDB-style back end -/

namespace RethinkDb

theorem typeName_data (cfg : Settings) (T N : String) :
    (NewTypeDbService cfg T N).tableName.data =
      (rewriteReserved T).data ++ '_' :: (rewriteReserved N).data := by
  have e1 : ("." : String) = ⟨['.']⟩ := rfl
  unfold NewTypeDbService
  rw [tableName_data]
  simp [rewriteReserved, e1]

/-- Claim C3. The table name stored by `NewTypeDbService T N` is `T + "." + N` with every
`.` and every `@` replaced by `_` and all other characters kept in place; it is as long as
`T + "." + N` and holds neither `.` nor `@`. -/
theorem NewTypeDbService_tableName (cfg : Settings) (T N : String) :
    (NewTypeDbService cfg T N).tableName = rewriteReserved (T ++ "." ++ N) ∧
    (NewTypeDbService cfg T N).tableName.length = (T ++ "." ++ N).length ∧
    '.' ∉ (NewTypeDbService cfg T N).tableName.data ∧
    '@' ∉ (NewTypeDbService cfg T N).tableName.data := by
  have h : (NewTypeDbService cfg T N).tableName = rewriteReserved (T ++ "." ++ N) := by
    unfold NewTypeDbService
    exact tableName_data _ _ _
  refine ⟨h, ?_, ?_, ?_⟩
  · rw [h]
    show (List.map _ (T ++ "." ++ N).data).length = (T ++ "." ++ N).data.length
    exact List.length_map _ _
  · rw [h]
    simp only [rewriteReserved, List.mem_map, not_exists, not_and]
    intro c _ hc
    split at hc
    · exact absurd hc (by decide)
    · rename_i hne
      exact hne (Or.inl hc)
  · rw [h]
    simp only [rewriteReserved, List.mem_map, not_exists, not_and]
    intro c _ hc
    split at hc
    · exact absurd hc (by decide)
    · rename_i hne
      exact hne (Or.inr hc)

/-- Claim C1, as stated, fails: the tenant scopes `a.b@c` and `a_b@c` are different and
non-empty, yet for the type name `orders` both handles store the same table name. -/
theorem tenant_scopes_collide :
    "a.b@c" ≠ "" ∧ "a_b@c" ≠ "" ∧ "a.b@c" ≠ "a_b@c" ∧ "orders" ≠ "" ∧
    (NewTypeDbService Settings.sample "a.b@c" "orders").tableName =
      (NewTypeDbService Settings.sample "a_b@c" "orders").tableName := by
  decide

/-- Claim C1, amended. For one type name, two tenant scopes get the same table name exactly
when the scopes coincide after every `.` and `@` in them is rewritten to `_`. -/
theorem tableName_eq_iff_tenant (cfg : Settings) (T1 T2 N : String) :
    (NewTypeDbService cfg T1 N).tableName = (NewTypeDbService cfg T2 N).tableName ↔
      rewriteReserved T1 = rewriteReserved T2 := by
  rw [String.ext_iff, typeName_data, typeName_data, List.append_left_inj, String.ext_iff]

/-- Claim C2, as stated, fails: within the tenant `acme` the different non-empty type names
`a.b` and `a_b` are stored under the same table name. -/
theorem type_names_collide :
    "acme" ≠ "" ∧ "a.b" ≠ "" ∧ "a_b" ≠ "" ∧ "a.b" ≠ "a_b" ∧
    (NewTypeDbService Settings.sample "acme" "a.b").tableName =
      (NewTypeDbService Settings.sample "acme" "a_b").tableName := by
  decide

/-- Claim C2, amended. Within one tenant, two type names get the same table name exactly
when the names coincide after every `.` and `@` in them is rewritten to `_`. -/
theorem tableName_eq_iff_typeName (cfg : Settings) (T N1 N2 : String) :
    (NewTypeDbService cfg T N1).tableName = (NewTypeDbService cfg T N2).tableName ↔
      rewriteReserved N1 = rewriteReserved N2 := by
  rw [String.ext_iff, typeName_data, typeName_data, List.append_right_inj, List.cons_inj_right,
    String.ext_iff]

end RethinkDb

/-! ## One activation of the Mongo-style `GetSession`, computed -/

namespace MongoDb

theorem GetCollectionWith_eq (g : World → Option (Result Session)) (d : dbService) (w : World) :
    GetCollectionWith g d w =
      match g w with
      | none => none
      | some (Result.fatal w1) => some (Result.fatal w1)
      | some (Result.panic w1) => some (Result.panic w1)
      | some (Result.ok s w1) =>
        some (Result.ok (s, { database := { session := s, name := d.dbName }, name := d.colName })
          w1) := by
  unfold GetCollectionWith GetDbWith
  cases h : g w with
  | none => rfl
  | some r => cases r <;> rfl

theorem Copy_world (s : Option Session) (w : World) :
    (Copy s w).world.inserted = w.inserted ∧ (Copy s w).world.uuids = w.uuids ∧
    (Copy s w).world.dials = w.dials ∧ (Copy s w).world.connectionPool = w.connectionPool ∧
    (Copy s w).world.ensured = w.ensured := by
  cases s <;> simp [Copy, Result.world]

theorem ensurePool_of_some (w : World) (m : List (String × Option Session))
    (h : w.connectionPool = some m) : ensurePool w = w := by
  simp [ensurePool, h]

theorem ensurePool_pool (w : World) :
    (ensurePool w).connectionPool = some (w.connectionPool.getD []) := by
  unfold ensurePool
  cases h : w.connectionPool <;> simp [h]

theorem ensurePool_fields (w : World) :
    (ensurePool w).nextSession = w.nextSession ∧ (ensurePool w).openCopies = w.openCopies ∧
    (ensurePool w).dials = w.dials ∧ (ensurePool w).ensured = w.ensured ∧
    (ensurePool w).inserted = w.inserted ∧ (ensurePool w).uuids = w.uuids := by
  unfold ensurePool
  cases h : w.connectionPool <;> simp

theorem poolGet_ensurePool (w : World) (k : String) :
    poolGet (ensurePool w).connectionPool k = poolGet w.connectionPool k := by
  rw [ensurePool_pool]
  cases h : w.connectionPool <;> simp [poolGet]

theorem lookup_poolSet (m : List (String × Option Session)) (k k1 : String)
    (v : Option Session) :
    (poolSet m k v).lookup k1 = if k1 = k then some v else m.lookup k1 := by
  unfold poolSet
  by_cases hk : k1 = k
  · subst hk
    simp [List.lookup]
  · have hk2 : (k1 == k) = false := by simpa using hk
    simp only [List.lookup, hk2, hk, if_false]
    induction m with
    | nil => rfl
    | cons p m ih =>
      obtain ⟨a, b⟩ := p
      by_cases ha : a = k
      · subst ha
        simpa [List.filter, List.lookup, hk2] using ih
      · by_cases hb : k1 = a
        · subst hb
          simp [List.filter, List.lookup, ha]
        · have hb2 : (k1 == a) = false := by simpa using hb
          simpa [List.filter, List.lookup, ha, hb2] using ih

theorem poolGet_poolSet (m : List (String × Option Session)) (k k1 : String)
    (v : Option Session) :
    poolGet (some (poolSet m k v)) k1 = if k1 = k then v else poolGet (some m) k1 := by
  simp only [poolGet, lookup_poolSet]
  by_cases hk : k1 = k
  · simp only [hk, if_true]
    cases v <;> rfl
  · simp only [hk, if_false]

/-- A cached session: the call copies it and touches nothing else. -/
theorem GetSession_hit (env : Env) (d : dbService) (fuel : Nat) (w : World) (s : Session)
    (h : poolGet w.connectionPool d.connectionString = some s) :
    GetSession env d (fuel + 1) w = some (Copy (some s) w) := by
  obtain ⟨m, hm⟩ : ∃ m, w.connectionPool = some m := by
    cases hp : w.connectionPool with
    | none => simp [hp, poolGet] at h
    | some m => exact ⟨m, rfl⟩
  simp only [GetSession, ensurePool_of_some w m hm, h]

end MongoDb

namespace MongoDb

/-- No cached session and `Dial` answers with a live session: the session is stored, the
nested `GetCollection` re-enters `GetSession` once, which copies the stored session. -/
theorem GetSession_miss (env : Env) (d : dbService) (fuel : Nat) (w : World)
    (h : poolGet w.connectionPool d.connectionString = none)
    (hd : env.dial w.dials.length d.connectionString = DialOutcome.session) :
    GetSession env d (fuel + 2) w =
      (let w1 := dialed d w
       let w2 : World :=
         { w1 with nextSession := w1.nextSession + 1,
                   openCopies := w1.openCopies ++ [w1.nextSession] }
       let col : Collection :=
         { database := { session := w1.nextSession, name := d.dbName }, name := d.colName }
       if d.index.Key.length > 0 then
         if env.ensureIndex col d.index then
           some (Copy (some w.nextSession) { w2 with ensured := w2.ensured ++ [(col, d.index)] })
         else some (Result.fatal { w2 with ensured := w2.ensured ++ [(col, d.index)] })
       else some (Copy (some w.nextSession) w2)) := by
  obtain ⟨h1, h2, h3, h4, h5, h6⟩ := ensurePool_fields w
  have hin : GetSession env d (fuel + 1) (dialed d w) =
      some (Copy (some w.nextSession) (dialed d w)) := by
    apply GetSession_hit
    simp [dialed, poolGet_poolSet]
  have hget : poolGet (some (w.connectionPool.getD [])) d.connectionString = none := by
    rw [← ensurePool_pool, poolGet_ensurePool, h]
  simp only [dialed] at hin
  rw [GetSession]
  simp only [hget, h1, h2, h3, h4, h5, h6, hd, ensurePool_pool, Option.getD_some, if_true,
    GetCollectionWith_eq, hin]
  simp [Copy, dialed]

end MongoDb

/-! ## Termination of the Mongo-style `GetSession` -/

namespace MongoDb

/-- On a cache miss one activation is not enough: the nested `GetCollection` re-enters. -/
theorem GetSession_miss_reenters (env : Env) (d : dbService) (w : World)
    (h : poolGet w.connectionPool d.connectionString = none)
    (hd : env.dial w.dials.length d.connectionString = DialOutcome.session) :
    GetSession env d 1 w = none := by
  obtain ⟨h1, h2, h3, h4, h5, h6⟩ := ensurePool_fields w
  have hget : poolGet (some (w.connectionPool.getD [])) d.connectionString = none := by
    rw [← ensurePool_pool, poolGet_ensurePool, h]
  rw [GetSession]
  simp only [hget, h3, hd, ensurePool_pool, GetCollectionWith_eq, GetSession]

/-- Were `Dial` to answer with a nil session and no error, the recursion would never end:
no bound on the nesting is enough. -/
theorem GetSession_nil_session_diverges (env : Env) (d : dbService)
    (hd : ∀ n, env.dial n d.connectionString = DialOutcome.nilSession) :
    ∀ fuel w, poolGet w.connectionPool d.connectionString = none →
      GetSession env d fuel w = none := by
  intro fuel
  induction fuel with
  | zero => intro w _; rfl
  | succ n ih =>
    intro w h
    have hget : poolGet (some (w.connectionPool.getD [])) d.connectionString = none := by
      rw [← ensurePool_pool, poolGet_ensurePool, h]
    rw [GetSession]
    simp only [hget, hd, ensurePool_pool, GetCollectionWith_eq]
    rw [ih]
    simp [poolGet_poolSet]

/-- Claim C10. When the `Dial` that a `GetSession` call would make answers with a live
session, the call terminates: two nested activations of `GetSession` (the outer one and one
re-entry through `GetCollection` and `GetDb`) always produce a result, and allowing deeper
nesting does not change it. -/
theorem GetSession_terminates (env : Env) (d : dbService) (w : World)
    (hd : env.dial w.dials.length d.connectionString = DialOutcome.session) (fuel : Nat) :
    (GetSession env d 2 w).isSome = true ∧
      GetSession env d (fuel + 2) w = GetSession env d 2 w := by
  cases h : poolGet w.connectionPool d.connectionString with
  | some s =>
    rw [GetSession_hit env d (fuel + 1) w s h, GetSession_hit env d 1 w s h]
    exact ⟨rfl, rfl⟩
  | none =>
    rw [GetSession_miss env d fuel w h hd, GetSession_miss env d 0 w h hd]
    refine ⟨?_, rfl⟩
    dsimp only
    split
    · split <;> rfl
    · rfl

theorem GetSession_terminates_witness :
    (GetSession Env.allSucceed (NewAppsDbService Settings.sample "ann") 2 World.start).isSome
        = true ∧
      GetSession Env.allSucceed (NewAppsDbService Settings.sample "ann") (5 + 2) World.start =
        GetSession Env.allSucceed (NewAppsDbService Settings.sample "ann") 2 World.start :=
  GetSession_terminates Env.allSucceed (NewAppsDbService Settings.sample "ann") World.start
    rfl 5

end MongoDb

/-! ## One `Dial` per connection string -/

namespace MongoDb

theorem mem_firstAppearances (x : String) :
    ∀ (l seen : List String), x ∈ firstAppearances seen l ↔ x ∈ l ∧ x ∉ seen := by
  intro l
  induction l with
  | nil => intro seen; simp [firstAppearances]
  | cons y ys ih =>
    intro seen
    by_cases hy : y ∈ seen
    · simp only [firstAppearances, hy, if_true, ih, List.mem_cons]
      constructor
      · rintro ⟨h1, h2⟩
        exact ⟨Or.inr h1, h2⟩
      · rintro ⟨h1 | h1, h2⟩
        · exact absurd (h1 ▸ hy) h2
        · exact ⟨h1, h2⟩
    · have hx : x ∉ seen ++ [y] ↔ x ∉ seen ∧ x ≠ y := by simp [not_or]
      simp only [firstAppearances, hy, if_false, List.mem_cons, ih, hx]
      constructor
      · rintro (h1 | ⟨h1, h2, _⟩)
        · exact ⟨Or.inl h1, h1 ▸ hy⟩
        · exact ⟨Or.inr h1, h2⟩
      · rintro ⟨h1 | h1, h2⟩
        · exact Or.inl h1
        · by_cases hxy : x = y
          · exact Or.inl hxy
          · exact Or.inr ⟨h1, h2, hxy⟩

theorem poolKeys_poolSet_nodup (m : List (String × Option Session)) (k : String)
    (v : Option Session) (hm : (m.map Prod.fst).Nodup) :
    ((poolSet m k v).map Prod.fst).Nodup := by
  unfold poolSet
  rw [List.map_cons, List.nodup_cons]
  constructor
  · intro hk
    obtain ⟨p, hp, hpk⟩ := List.mem_map.mp hk
    have := (List.mem_filter.mp hp).2
    simp at this
    exact this hpk
  · exact hm.sublist ((List.filter_sublist m).map Prod.fst)

theorem PoolInv_start : PoolInv World.start := by
  refine ⟨List.nodup_nil, ?_, ?_⟩
  · simp [poolKeys, World.start]
  · intro cs
    simp [World.start, poolGet]

/-- What one `GetSession` call does to the pool and to the record of `Dial` calls when every
`Dial` answers with a live session. -/
theorem GetSession_world (env : Env) (hdial : ∀ n cs, env.dial n cs = DialOutcome.session)
    (d : dbService) (fuel : Nat) (w : World) :
    ∃ r, GetSession env d (fuel + 2) w = some r ∧ (∀ w1, r ≠ Result.panic w1) ∧
      r.world.dials =
        (if (poolGet w.connectionPool d.connectionString).isSome then w.dials
         else w.dials ++ [d.connectionString]) ∧
      r.world.connectionPool =
        (if (poolGet w.connectionPool d.connectionString).isSome then w.connectionPool
         else some (poolSet (w.connectionPool.getD []) d.connectionString
            (some w.nextSession))) ∧
      ((∀ c i, env.ensureIndex c i = true) → ∀ w1, r ≠ Result.fatal w1) := by
  cases h : poolGet w.connectionPool d.connectionString with
  | some s =>
    refine ⟨_, GetSession_hit env d (fuel + 1) w s h, ?_⟩
    simp [Copy, Result.world]
  | none =>
    rw [GetSession_miss env d fuel w h (hdial _ _)]
    dsimp only
    by_cases hk : d.index.Key.length > 0
    · by_cases he : env.ensureIndex
          { database := { session := (dialed d w).nextSession, name := d.dbName },
            name := d.colName } d.index = true
      · rw [if_pos hk, if_pos he]
        refine ⟨_, rfl, ?_⟩
        simp [Copy, Result.world, dialed]
      · rw [if_pos hk, if_neg he]
        refine ⟨_, rfl, ?_⟩
        simp only [Result.world, dialed, Option.isSome_none, Bool.false_eq_true, if_false,
          ne_eq, not_false_eq_true, implies_true, true_and, reduceCtorEq]
        intro hall
        exact absurd (hall _ _) he
    · rw [if_neg hk]
      refine ⟨_, rfl, ?_⟩
      simp [Copy, Result.world, dialed]

theorem PoolInv_step (env : Env) (hdial : ∀ n cs, env.dial n cs = DialOutcome.session)
    (d : dbService) (fuel : Nat) (w : World) (hw : PoolInv w) (r : Result Session)
    (hr : GetSession env d (fuel + 2) w = some r) : PoolInv r.world := by
  obtain ⟨r1, hr1, _, hdials, hpool, _⟩ := GetSession_world env hdial d fuel w
  rw [hr] at hr1
  cases hr1
  obtain ⟨hn, hkeys, hmem⟩ := hw
  cases h : poolGet w.connectionPool d.connectionString with
  | some s =>
    simp only [h, Option.isSome_some, if_true] at hdials hpool
    refine ⟨hdials ▸ hn, ?_, ?_⟩
    · simpa [poolKeys, hpool] using hkeys
    · intro cs
      rw [hdials, hpool]
      exact hmem cs
  | none =>
    simp only [h, Option.isSome_none, Bool.false_eq_true, if_false] at hdials hpool
    have hnot : d.connectionString ∉ w.dials := by
      intro hc
      have := (hmem _).mp hc
      simp [h] at this
    refine ⟨?_, ?_, ?_⟩
    · rw [hdials]
      exact List.Nodup.append hn (List.nodup_singleton _) (by simpa using hnot)
    · simp only [poolKeys, hpool, Option.getD_some]
      exact poolKeys_poolSet_nodup _ _ _ hkeys
    · intro cs
      rw [hdials, hpool, poolGet_poolSet, List.mem_append, List.mem_singleton]
      by_cases hcs : cs = d.connectionString
      · simp [hcs]
      · have hg : poolGet (some (w.connectionPool.getD [])) cs = poolGet w.connectionPool cs := by
          rw [← ensurePool_pool, poolGet_ensurePool]
        simp only [hcs, or_false, if_false, hg]
        exact hmem cs

end MongoDb

namespace MongoDb

theorem runGetSessions_spec (env : Env) (hdial : ∀ n cs, env.dial n cs = DialOutcome.session)
    (fuel : Nat) :
    ∀ (hs : List dbService) (w : World), PoolInv w →
      (runGetSessions env (fuel + 2) hs w).2.dials =
          w.dials ++ firstAppearances w.dials
            ((runGetSessions env (fuel + 2) hs w).1.map dbService.connectionString) ∧
        PoolInv (runGetSessions env (fuel + 2) hs w).2 ∧
        (runGetSessions env (fuel + 2) hs w).1 <+: hs ∧
        ((∀ c i, env.ensureIndex c i = true) → (runGetSessions env (fuel + 2) hs w).1 = hs) := by
  intro hs
  induction hs with
  | nil =>
    intro w hw
    simp [runGetSessions, firstAppearances, hw]
  | cons d ds ih =>
    intro w hw
    obtain ⟨r, hr, hpanic, hdials, _, hfatal⟩ := GetSession_world env hdial d fuel w
    have hinv := PoolInv_step env hdial d fuel w hw r hr
    have hmem := hw.2.2 d.connectionString
    have hd1 : r.world.dials = w.dials ++ firstAppearances w.dials [d.connectionString] := by
      rw [hdials]
      by_cases hc : d.connectionString ∈ w.dials
      · simp [firstAppearances, hc, hmem.mp hc]
      · have hc2 : ¬ (poolGet w.connectionPool d.connectionString).isSome = true :=
          fun h => hc (hmem.mpr h)
        simp [firstAppearances, hc, hc2]
    cases r with
    | panic w1 => exact absurd rfl (hpanic w1)
    | fatal w1 =>
      simp only [runGetSessions, hr, List.map_cons, List.map_nil]
      refine ⟨hd1, hinv, ?_, ?_⟩
      · exact ⟨ds, rfl⟩
      · intro hall
        exact absurd rfl (hfatal hall w1)
    | ok s w1 =>
      obtain ⟨ih1, ih2, ih3, ih4⟩ := ih w1 hinv
      simp only [runGetSessions, hr, List.map_cons]
      refine ⟨?_, ih2, ?_, ?_⟩
      · rw [ih1]
        simp only [Result.world] at hdials
        by_cases hc : d.connectionString ∈ w.dials
        · have hw1 : w1.dials = w.dials := by simpa [hmem.mp hc] using hdials
          simp [firstAppearances, hc, hw1]
        · have hc2 : ¬ (poolGet w.connectionPool d.connectionString).isSome = true :=
            fun h => hc (hmem.mpr h)
          have hw1 : w1.dials = w.dials ++ [d.connectionString] := by
            simpa [hc2] using hdials
          simp [firstAppearances, hc, hw1]
      · obtain ⟨t, ht⟩ := ih3
        exact ⟨t, by rw [List.cons_append, ht]⟩
      · intro hall
        rw [ih4 hall]

/-- Claim C5. From process start (nil `connectionPool`), with every `Dial` answering with a
live session, after any sequence of `GetSession` calls the record of `Dial` calls is the
sequence of distinct connection strings of the calls made, each at its first appearance:
every such string was dialled exactly once, no other string was dialled, the pool holds at
most one entry per connection string, and exactly the dialled strings are cached. The calls
made are a prefix of the sequence, and all of it when `EnsureIndex` never fails (a failing
`EnsureIndex` ends the process through `log.Fatal`). As the sequence is arbitrary, this
holds at every point of a run. -/
theorem GetSession_dials_once (env : Env)
    (hdial : ∀ n cs, env.dial n cs = DialOutcome.session) (fuel : Nat)
    (hs : List dbService) :
    (runGetSessions env (fuel + 2) hs World.start).2.dials =
        firstAppearances []
          ((runGetSessions env (fuel + 2) hs World.start).1.map dbService.connectionString) ∧
      (∀ cs, (runGetSessions env (fuel + 2) hs World.start).2.dials.count cs =
        if cs ∈ (runGetSessions env (fuel + 2) hs World.start).1.map dbService.connectionString
        then 1 else 0) ∧
      (poolKeys (runGetSessions env (fuel + 2) hs World.start).2).Nodup ∧
      (∀ cs, (poolGet (runGetSessions env (fuel + 2) hs World.start).2.connectionPool cs).isSome
          = true ↔
        cs ∈ (runGetSessions env (fuel + 2) hs World.start).1.map dbService.connectionString) ∧
      (runGetSessions env (fuel + 2) hs World.start).1 <+: hs ∧
      ((∀ c i, env.ensureIndex c i = true) →
        (runGetSessions env (fuel + 2) hs World.start).1 = hs) := by
  obtain ⟨h1, ⟨hn, hkeys, hmem⟩, h3, h4⟩ :=
    runGetSessions_spec env hdial fuel hs World.start PoolInv_start
  have h1b : (runGetSessions env (fuel + 2) hs World.start).2.dials =
      firstAppearances []
        ((runGetSessions env (fuel + 2) hs World.start).1.map dbService.connectionString) := by
    simpa [World.start] using h1
  have hiff : ∀ cs, cs ∈ (runGetSessions env (fuel + 2) hs World.start).2.dials ↔
      cs ∈ (runGetSessions env (fuel + 2) hs World.start).1.map dbService.connectionString := by
    intro cs
    rw [h1b, mem_firstAppearances]
    simp
  refine ⟨h1b, ?_, hkeys, ?_, h3, h4⟩
  · intro cs
    by_cases hc : cs ∈
        (runGetSessions env (fuel + 2) hs World.start).1.map dbService.connectionString
    · rw [if_pos hc]
      exact List.count_eq_one_of_mem hn ((hiff cs).mpr hc)
    · rw [if_neg hc]
      exact List.count_eq_zero_of_not_mem (fun h => hc ((hiff cs).mp h))
  · intro cs
    rw [← hmem cs]
    exact hiff cs

end MongoDb

/-! ## Identifier generation on `Insert` -/

namespace MongoDb

theorem GetCollectionWith_inserted (g : World → Option (Result Session)) (d : dbService)
    (hg : ∀ w r, g w = some r → r.world.inserted = w.inserted) (w : World)
    (r : Result (Session × Collection)) (h : GetCollectionWith g d w = some r) :
    r.world.inserted = w.inserted := by
  rw [GetCollectionWith_eq] at h
  split at h
  · cases h
  · rename_i w1 hq
    cases h
    exact hg _ _ hq
  · rename_i w1 hq
    cases h
    exact hg _ _ hq
  · rename_i s w1 hq
    cases h
    exact hg _ _ hq

theorem GetSession_inserted (env : Env) (d : dbService) :
    ∀ fuel w r, GetSession env d fuel w = some r → r.world.inserted = w.inserted := by
  intro fuel
  induction fuel with
  | zero => intro w r h; simp [GetSession] at h
  | succ n ih =>
    intro w r h
    obtain ⟨h1, h2, h3, h4, h5, h6⟩ := ensurePool_fields w
    simp only [GetSession] at h
    split at h
    · cases h
      simp [Copy, Result.world, h5]
    · split at h
      · cases h
        simp [Result.world, h5]
      · split at h
        · cases h
        · rename_i hq
          have hi := GetCollectionWith_inserted _ d (ih) _ _ hq
          simp only [Result.world] at hi
          cases h
          simpa [Result.world, h5] using hi
        · rename_i hq
          have hi := GetCollectionWith_inserted _ d (ih) _ _ hq
          simp only [Result.world] at hi
          cases h
          simpa [Result.world, h5] using hi
        · rename_i hq
          have hi := GetCollectionWith_inserted _ d (ih) _ _ hq
          simp only [Result.world] at hi
          split at h
          · split at h
            · cases h
              rw [(Copy_world _ _).1]
              simpa [h5] using hi
            · cases h
              simpa [Result.world, h5] using hi
          · cases h
            rw [(Copy_world _ _).1]
            simpa [h5] using hi

end MongoDb

namespace MongoDb

theorem GetCollection_inserted (env : Env) (d : dbService) (fuel : Nat) (w : World)
    (r : Result (Session × Collection)) (h : GetCollection env d fuel w = some r) :
    r.world.inserted = w.inserted :=
  GetCollectionWith_inserted _ d (GetSession_inserted env d fuel) w r h

/-- On a nil map the assignment of the generated identifier panics: the caller's map stays
nil and the driver is never reached. -/
theorem Insert_nil (env : Env) (d : dbService) (fuel : Nat) (w : World) :
    Insert env d Doc.nil fuel w = (Doc.nil, some (Result.panic { w with uuids := w.uuids + 1 })) := by
  simp [Insert, Doc.lookup, Doc.set]

theorem Insert_map_eq (env : Env) (d : dbService) (m : String → Option Value) (fuel : Nat)
    (w : World) :
    Insert env d (Doc.map m) fuel w =
      match GetCollection env d fuel
        (if (m "_id").isSome then w else { w with uuids := w.uuids + 1 }) with
      | none =>
        (if (m "_id").isSome then Doc.map m
          else Doc.map (fun k => if k = "_id" then some (Value.str (env.uuid w.uuids)) else m k),
          none)
      | some (Result.fatal w1) =>
        (if (m "_id").isSome then Doc.map m
          else Doc.map (fun k => if k = "_id" then some (Value.str (env.uuid w.uuids)) else m k),
          some (Result.fatal w1))
      | some (Result.panic w1) =>
        (if (m "_id").isSome then Doc.map m
          else Doc.map (fun k => if k = "_id" then some (Value.str (env.uuid w.uuids)) else m k),
          some (Result.panic w1))
      | some (Result.ok (session, collection) w1) =>
        (if (m "_id").isSome then Doc.map m
          else Doc.map (fun k => if k = "_id" then some (Value.str (env.uuid w.uuids)) else m k),
          some (Result.ok
            (env.insert collection
              (if (m "_id").isSome then Doc.map m
                else Doc.map
                  (fun k => if k = "_id" then some (Value.str (env.uuid w.uuids)) else m k)))
            (Close session
              { w1 with inserted := w1.inserted ++
                [(collection,
                  if (m "_id").isSome then Doc.map m
                  else Doc.map
                    (fun k => if k = "_id" then some (Value.str (env.uuid w.uuids))
                      else m k))] }))) := by
  cases hid : (m "_id").isSome <;> simp [Insert, Doc.lookup, Doc.set, hid]

theorem Insert_map (env : Env) (d : dbService) (m : String → Option Value) (fuel : Nat)
    (w : World) :
    (Insert env d (Doc.map m) fuel w).1 =
      if (m "_id").isSome then Doc.map m
      else Doc.map (fun k => if k = "_id" then some (Value.str (env.uuid w.uuids)) else m k) := by
  rw [Insert_map_eq]
  split <;> rfl

theorem Insert_handed (env : Env) (d : dbService) (doc : Doc) (fuel : Nat) (w : World) :
    handedDocs (Insert env d doc fuel w).2 w =
      if returned (Insert env d doc fuel w).2 then [(Insert env d doc fuel w).1] else [] := by
  cases doc with
  | nil => simp [Insert_nil, handedDocs, worldAfter, returned, Result.world]
  | map m =>
    have hw : (if (m "_id").isSome then w else { w with uuids := w.uuids + 1 }).inserted =
        w.inserted := by
      split <;> rfl
    rw [Insert_map_eq]
    split
    · simp [handedDocs, worldAfter, returned]
    · rename_i w1 hq
      have hi := GetCollection_inserted _ _ _ _ _ hq
      simp only [Result.world, hw] at hi
      simp [handedDocs, worldAfter, returned, Result.world, hi]
    · rename_i w1 hq
      have hi := GetCollection_inserted _ _ _ _ _ hq
      simp only [Result.world, hw] at hi
      simp [handedDocs, worldAfter, returned, Result.world, hi]
    · rename_i s c w1 hq
      have hi := GetCollection_inserted _ _ _ _ _ hq
      simp only [Result.world, hw] at hi
      simp [handedDocs, worldAfter, returned, Result.world, Close, hi]

theorem Insert_handed_has_id (env : Env) (d : dbService) (doc : Doc) (fuel : Nat)
    (w : World) :
    (handedDocs (Insert env d doc fuel w).2 w).all (fun h => (h.lookup "_id").isSome) = true := by
  rw [Insert_handed]
  cases doc with
  | nil => simp [Insert_nil, returned]
  | map m =>
    by_cases hr : returned (Insert env d (Doc.map m) fuel w).2 = true
    · rw [if_pos hr, Insert_map]
      cases hid : (m "_id").isSome <;> simp [hid, Doc.lookup]
    · rw [if_neg hr]
      rfl

end MongoDb

namespace RethinkDb

theorem GetSession_keeps_inserted (env : Env) (d : dbService) (w : World) :
    (GetSession env d w).world.inserted = w.inserted := by
  unfold GetSession
  cases h : w.session with
  | none =>
    dsimp only
    split <;> rfl
  | some s => rfl

theorem GetTable_keeps_inserted (env : Env) (d : dbService) (w : World) :
    (GetTable env d w).world.inserted = w.inserted := by
  have h := GetSession_keeps_inserted env d w
  unfold GetTable
  dsimp only
  split
  · rename_i w1 hq
    rw [hq] at h
    exact h
  · rename_i s w1 hq
    rw [hq] at h
    simp only [Result.world] at h ⊢
    split <;> exact h

theorem index_eq_nil_iff (m : String → Option Value) (k : String) :
    (Doc.map m).index k = Value.nil ↔ (m k = none ∨ m k = some Value.nil) := by
  unfold Doc.index Doc.lookup
  cases h : m k <;> simp [h]

/-- On a nil map the assignment of the generated identifier panics: the caller's map stays
nil and the driver is never reached. -/
theorem Insert_nil_map (env : Env) (d : dbService) (w : World) :
    Insert env d Doc.nil w = (Doc.nil, Result.panic { w with uuids := w.uuids + 1 }) := by
  simp [Insert, Doc.index, Doc.lookup, Doc.set]

theorem Insert_caller_doc (env : Env) (d : dbService) (m : String → Option Value)
    (w : World) :
    (Insert env d (Doc.map m) w).1 =
      if m "id" = none ∨ m "id" = some Value.nil then
        Doc.map (fun k => if k = "id" then some (Value.str (env.uuid w.uuids)) else m k)
      else Doc.map m := by
  by_cases hid : (Doc.map m).index "id" = Value.nil
  · have hid2 := (index_eq_nil_iff m "id").mp hid
    simp only [Insert, hid, hid2, if_true, Doc.set]
    split
    · rfl
    · split <;> rfl
  · have hid2 : ¬ (m "id" = none ∨ m "id" = some Value.nil) :=
      fun h => hid ((index_eq_nil_iff m "id").mpr h)
    simp only [Insert, hid, hid2, if_false]
    split
    · rfl
    · split <;> rfl

theorem Insert_hands_doc (env : Env) (d : dbService) (doc : Doc) (w : World) :
    handedDocs (Insert env d doc w).2 w =
      if returned (Insert env d doc w).2 then [(Insert env d doc w).1] else [] := by
  cases doc with
  | nil => simp [Insert_nil_map, handedDocs, returned, Result.world]
  | map m =>
    by_cases hid : (Doc.map m).index "id" = Value.nil
    · simp only [Insert, hid, if_true, Doc.set]
      have h1 := GetTable_keeps_inserted env d { w with uuids := w.uuids + 1 }
      split
      · rename_i w1 hq
        rw [hq] at h1
        simp_all [handedDocs, returned, Result.world]
      · rename_i t w1 hq
        rw [hq] at h1
        have h2 := GetSession_keeps_inserted env d w1
        split
        · rename_i w2 hq2
          rw [hq2] at h2
          simp_all [handedDocs, returned, Result.world]
        · rename_i s w2 hq2
          rw [hq2] at h2
          simp_all [handedDocs, returned, Result.world]
    · simp only [Insert, hid, if_false]
      have h1 := GetTable_keeps_inserted env d w
      split
      · rename_i w1 hq
        rw [hq] at h1
        simp_all [handedDocs, returned, Result.world]
      · rename_i t w1 hq
        rw [hq] at h1
        have h2 := GetSession_keeps_inserted env d w1
        split
        · rename_i w2 hq2
          rw [hq2] at h2
          simp_all [handedDocs, returned, Result.world]
        · rename_i s w2 hq2
          rw [hq2] at h2
          simp_all [handedDocs, returned, Result.world]

theorem Insert_handed_id_not_nil (env : Env) (d : dbService) (doc : Doc) (w : World) :
    (handedDocs (Insert env d doc w).2 w).all
      (fun h => decide (h.index "id" ≠ Value.nil)) = true := by
  rw [Insert_hands_doc]
  cases doc with
  | nil => simp [Insert_nil_map, returned]
  | map m =>
    by_cases hr : returned (Insert env d (Doc.map m) w).2 = true
    · rw [if_pos hr, Insert_caller_doc]
      by_cases hid : m "id" = none ∨ m "id" = some Value.nil
      · simp [hid, Doc.index, Doc.lookup]
      · have hne : ¬ (Doc.map m).index "id" = Value.nil :=
          fun h => hid ((index_eq_nil_iff m "id").mp h)
        simp [hid, hne]
    · rw [if_neg hr]
      rfl

end RethinkDb

/-- Claim C4, as stated, fails for the RethinkDB-style back end: a document that contains
the field `id`, holding the nil interface, is not left unchanged; `Insert` overwrites the
field with a generated identifier. -/
theorem Insert_overwrites_nil_id :
    (RethinkDb.nilIdDoc.lookup "id").isSome = true ∧
    (RethinkDb.Insert RethinkDb.Env.allSucceed
        (RethinkDb.NewTypeDbService RethinkDb.Settings.sample "acme" "orders")
        RethinkDb.nilIdDoc RethinkDb.World.start).1.lookup "id" = some (Value.str "f") ∧
    (RethinkDb.Insert RethinkDb.Env.allSucceed
        (RethinkDb.NewTypeDbService RethinkDb.Settings.sample "acme" "orders")
        RethinkDb.nilIdDoc RethinkDb.World.start).1.lookup "id" ≠
      RethinkDb.nilIdDoc.lookup "id" := by
  decide

/-- Claim C4, amended. A nil map makes `Insert` panic on the assignment of the generated
identifier, in both back ends: the caller's map stays nil and nothing reaches the driver.
For an allocated map, the document handed to the driver is the caller's map after the
identifier step and it holds the identifier field. In the Mongo-style back end a map with
an `_id` entry, whatever its value, is left as it is, and a map without one gains only
`_id`, set to the generated identifier. In the RethinkDB-style back end a map whose `id` is
absent or is the nil interface has `id` set to the generated identifier and nothing else
changed; a map with a non-nil `id` is left as it is; the `id` handed over is never nil. -/
theorem Insert_identifier_field (menv : MongoDb.Env) (md : MongoDb.dbService) (fuel : Nat)
    (mw : MongoDb.World) (renv : RethinkDb.Env) (rd : RethinkDb.dbService)
    (rwld : RethinkDb.World) (doc : Doc) :
    ((MongoDb.Insert menv md doc fuel mw).1 =
        match doc with
        | Doc.nil => Doc.nil
        | Doc.map m =>
          if (m "_id").isSome then Doc.map m
          else Doc.map
            (fun k => if k = "_id" then some (Value.str (menv.uuid mw.uuids)) else m k)) ∧
    (MongoDb.handedDocs (MongoDb.Insert menv md doc fuel mw).2 mw =
        if MongoDb.returned (MongoDb.Insert menv md doc fuel mw).2 then
          [(MongoDb.Insert menv md doc fuel mw).1]
        else []) ∧
    ((MongoDb.handedDocs (MongoDb.Insert menv md doc fuel mw).2 mw).all
        (fun h => (h.lookup "_id").isSome) = true) ∧
    (doc.isNil = false ∨
      (MongoDb.panicked (MongoDb.Insert menv md doc fuel mw).2 = true ∧
        MongoDb.handedDocs (MongoDb.Insert menv md doc fuel mw).2 mw = [])) ∧
    ((RethinkDb.Insert renv rd doc rwld).1 =
        match doc with
        | Doc.nil => Doc.nil
        | Doc.map m =>
          if m "id" = none ∨ m "id" = some Value.nil then
            Doc.map
              (fun k => if k = "id" then some (Value.str (renv.uuid rwld.uuids)) else m k)
          else Doc.map m) ∧
    (RethinkDb.handedDocs (RethinkDb.Insert renv rd doc rwld).2 rwld =
        if RethinkDb.returned (RethinkDb.Insert renv rd doc rwld).2 then
          [(RethinkDb.Insert renv rd doc rwld).1]
        else []) ∧
    ((RethinkDb.handedDocs (RethinkDb.Insert renv rd doc rwld).2 rwld).all
        (fun h => decide (h.index "id" ≠ Value.nil)) = true) ∧
    (doc.isNil = false ∨
      (RethinkDb.panicked (RethinkDb.Insert renv rd doc rwld).2 = true ∧
        RethinkDb.handedDocs (RethinkDb.Insert renv rd doc rwld).2 rwld = [])) := by
  refine ⟨?_, MongoDb.Insert_handed _ _ _ _ _, MongoDb.Insert_handed_has_id _ _ _ _ _, ?_, ?_,
    RethinkDb.Insert_hands_doc _ _ _ _, RethinkDb.Insert_handed_id_not_nil _ _ _ _, ?_⟩
  · cases doc with
    | nil => rw [MongoDb.Insert_nil]
    | map m => exact MongoDb.Insert_map _ _ _ _ _
  · cases doc with
    | nil =>
      right
      simp [MongoDb.Insert_nil, MongoDb.panicked, MongoDb.handedDocs, MongoDb.worldAfter,
        MongoDb.Result.world]
    | map m => exact Or.inl rfl
  · cases doc with
    | nil => rw [RethinkDb.Insert_nil_map]
    | map m => exact RethinkDb.Insert_caller_doc _ _ _ _
  · cases doc with
    | nil =>
      right
      simp [RethinkDb.Insert_nil_map, RethinkDb.panicked, RethinkDb.handedDocs,
        RethinkDb.Result.world]
    | map m => exact Or.inl rfl

/-! ## The process-wide session of the RethinkDB-style back end -/

namespace RethinkDb

theorem runGetSessions_cached (env : Env) (s : Session) :
    ∀ (hs : List dbService) (w : World), w.session = some s →
      ∀ p ∈ runGetSessions env hs w, p.2 = s := by
  intro hs
  induction hs with
  | nil => intro w _ p hp; simp [runGetSessions] at hp
  | cons d ds ih =>
    intro w hw p hp
    have hg : GetSession env d w = Result.ok s w := by simp [GetSession, hw]
    simp only [runGetSessions, hg, List.mem_cons] at hp
    rcases hp with rfl | hp
    · rfl
    · exact ih w hw p hp

theorem runGetSessions_first (env : Env) :
    ∀ (hs : List dbService) (w : World), w.session = none →
      ∀ p ∈ runGetSessions env hs w,
        ∃ d0 s0 rest, runGetSessions env hs w = (d0, s0) :: rest ∧
          s0.address = d0.address ∧ p.2 = s0 := by
  intro hs
  induction hs with
  | nil => intro w _ p hp; simp [runGetSessions] at hp
  | cons d ds ih =>
    intro w hw p hp
    by_cases hc : env.connect w.connects.length d.address = true
    · have hg : GetSession env d w =
          Result.ok { id := (w.connects ++ [d.address]).length - 1, address := d.address }
            { w with
              connects := w.connects ++ [d.address]
              session := some
                { id := (w.connects ++ [d.address]).length - 1, address := d.address } } := by
        simp [GetSession, hw, hc]
      simp only [runGetSessions, hg, List.mem_cons] at hp ⊢
      refine ⟨d, _, _, rfl, rfl, ?_⟩
      rcases hp with rfl | hp
      · rfl
      · exact runGetSessions_cached env _ ds _ rfl p hp
    · have hg : GetSession env d w =
          Result.panic { w with connects := w.connects ++ [d.address] } := by
        simp [GetSession, hw, hc]
      simp only [runGetSessions, hg] at hp ⊢
      exact ih { w with connects := w.connects ++ [d.address] } hw p hp

/-- Claim C6, as stated, fails: after a call through a handle with address `db-a:28015`, a
call through a handle with address `db-b:28015` receives the very same session, which is
connected to `db-a:28015`. -/
theorem GetSession_ignores_address :
    handleA.address = "db-a:28015" ∧ handleB.address = "db-b:28015" ∧
    runGetSessions Env.allSucceed [handleA, handleB] World.start =
      [(handleA, { id := 0, address := "db-a:28015" }),
       (handleB, { id := 0, address := "db-a:28015" })] := by
  decide

/-- Claim C6, amended. The RethinkDB-style back end keeps one process-wide session, not one
per address. In every sequence of `GetSession` calls from process start, where a call
whose `r.Connect` fails panics, leaves `session` nil and is followed by the later calls,
each call that returns yields the session received by the first call that returned; that
session is connected to the address of the handle of that first returning call, whatever
the address of the handle a later call is made through. -/
theorem GetSession_first_address (env : Env) (hs : List dbService)
    (p : dbService × Session) (hp : p ∈ runGetSessions env hs World.start) :
    ∃ d0 s0 rest, runGetSessions env hs World.start = (d0, s0) :: rest ∧
      s0.address = d0.address ∧ p.2 = s0 :=
  runGetSessions_first env hs World.start rfl p hp

theorem GetSession_first_address_witness :
    (handleA, ({ id := 1, address := "db-b:28015" } : Session)) ∈
        runGetSessions Env.firstConnectFails [handleA, handleB, handleA] World.start ∧
      ∃ d0 s0 rest,
        runGetSessions Env.firstConnectFails [handleA, handleB, handleA] World.start =
            (d0, s0) :: rest ∧
          s0.address = d0.address ∧
          (handleA, ({ id := 1, address := "db-b:28015" } : Session)).2 = s0 :=
  ⟨by decide,
    GetSession_first_address Env.firstConnectFails [handleA, handleB, handleA]
      (handleA, { id := 1, address := "db-b:28015" }) (by decide)⟩

end RethinkDb

/-! ## Session copies and index provisioning in the Mongo-style back end -/

namespace MongoDb

theorem GetSession_dials_once_witness :
    (∀ n cs, Env.allSucceed.dial n cs = DialOutcome.session) ∧
    (runGetSessions Env.allSucceed 2
        [NewUsersDbService Settings.sample, NewAppsDbService Settings.replica "ann",
          NewTypeDbService Settings.sample "acme" "orders"] World.start).2.dials =
      firstAppearances []
        ((runGetSessions Env.allSucceed 2
          [NewUsersDbService Settings.sample, NewAppsDbService Settings.replica "ann",
            NewTypeDbService Settings.sample "acme" "orders"] World.start).1.map
          dbService.connectionString) :=
  ⟨fun _ _ => rfl,
    (GetSession_dials_once Env.allSucceed (fun _ _ => rfl) 0
      [NewUsersDbService Settings.sample, NewAppsDbService Settings.replica "ann",
        NewTypeDbService Settings.sample "acme" "orders"]).1⟩

/-- With a cached session, obtaining the collection never reaches `EnsureIndex`. -/
theorem GetCollection_cached_skips_EnsureIndex (env : Env) (d : dbService) (fuel : Nat)
    (w : World) (s : Session) (h : poolGet w.connectionPool d.connectionString = some s) :
    (worldAfter (GetCollection env d (fuel + 1) w) w).ensured = w.ensured := by
  simp [GetCollection, GetCollectionWith_eq, GetSession_hit env d fuel w s h, Copy, worldAfter,
    Result.world]

/-- Claim C7, evaluated where it fails. From process start, with every driver call
succeeding, each of the six operations returns and leaves one session copy open (the copy
made by the `GetCollection` call inside `GetSession`), where none was open before. -/
theorem first_operation_leaks_copy :
    World.start.openCopies = [] ∧
    (worldAfter (Insert Env.allSucceed (NewUsersDbService Settings.sample) Doc.empty 2
      World.start).2 World.start).openCopies = [1] ∧
    (worldAfter (Update Env.allSucceed (NewUsersDbService Settings.sample) Doc.empty Doc.empty 2
      World.start) World.start).openCopies = [1] ∧
    (worldAfter (FindId Env.allSucceed (NewUsersDbService Settings.sample) (Value.str "a")
      Value.nil 2 World.start) World.start).openCopies = [1] ∧
    (worldAfter (Find Env.allSucceed (NewUsersDbService Settings.sample) Value.nil Value.nil 2
      World.start) World.start).openCopies = [1] ∧
    (worldAfter (RemoveId Env.allSucceed (NewUsersDbService Settings.sample) (Value.str "a") 2
      World.start) World.start).openCopies = [1] ∧
    (worldAfter (UpdateId Env.allSucceed (NewUsersDbService Settings.sample) (Value.str "a")
      Value.nil 2 World.start) World.start).openCopies = [1] ∧
    returned (Insert Env.allSucceed (NewUsersDbService Settings.sample) Doc.empty 2
      World.start).2 = true := by
  decide

/-- Claim C8, evaluated where it fails. Once a `NewUsersDbService` handle has connected, the
connection string is cached; obtaining the collection through a `NewAppsDbService` handle,
whose index has a non-empty key, returns without any `EnsureIndex` call. -/
theorem index_not_ensured_when_cached :
    (NewAppsDbService Settings.sample "ann").index.Key.length > 0 ∧
    poolGet afterUsersConnected.connectionPool
      (NewAppsDbService Settings.sample "ann").connectionString = some 0 ∧
    returned (GetCollection Env.allSucceed (NewAppsDbService Settings.sample "ann") 2
      afterUsersConnected) = true ∧
    (worldAfter (GetCollection Env.allSucceed (NewAppsDbService Settings.sample "ann") 2
      afterUsersConnected) afterUsersConnected).ensured = [] := by
  decide

end MongoDb
